import Mathlib

/-!
Verification development for `scripts/result_to_table.py`.

The script is a single function `main` that reads `result.csv`, filters and
buckets its comma-separated records into two nested dictionaries
(`total_lemmas` and `verified`, both `defaultdict(lambda: defaultdict(int))`),
and prints one table row per selected case key, in natural-sort order.

This file gives a shallow embedding of that program and proves properties of
it.  Python string primitives (`str.split` with a one-character separator,
`str.strip`, `str.endswith`, `str.isnumeric`, `int(...)`) are implemented
here over `List Char` so that every definition evaluates by kernel reduction.
`str.isnumeric` and `int(...)` are modelled for ASCII text: `isnumeric` is
"non-empty and all decimal digits", and `int` accepts an optional sign
followed by decimal digits after stripping whitespace.  (Python additionally
accepts some further Unicode numerals and underscore digit separators; the
data this script consumes is ASCII without underscores, and no claim depends
on those corners.)  A raised `ValueError` is modelled as `Except.error`.
-/

namespace ResultToTable

/-- Python `str.split(sep)` for a one-character separator, on character
lists: split on every occurrence of `sep`; always at least one (possibly
empty) piece. -/
def splitL (sep : Char) : List Char → List (List Char)
  | [] => [[]]
  | c :: cs =>
    match splitL sep cs with
    | [] => if c = sep then [[], [c]] else [[c]]
    | p :: ps => if c = sep then [] :: p :: ps else (c :: p) :: ps

/-- Python `str.split(sep)` for a one-character separator, on strings. -/
def pySplit (sep : Char) (s : String) : List String :=
  (splitL sep s.toList).map String.mk

/-- Python `str.strip()`: drop whitespace from both ends. -/
def pyStrip (s : String) : String :=
  String.mk (((s.toList.dropWhile Char.isWhitespace).reverse.dropWhile
    Char.isWhitespace).reverse)

/-- Helper for `pyEndsWith`: does the first list appear at the head of the
second? -/
def beginsWith : List Char → List Char → Bool
  | [], _ => true
  | _ :: _, [] => false
  | p :: ps, c :: cs => p = c && beginsWith ps cs

/-- Python `s.endswith(suffix)`. -/
def pyEndsWith (s suff : String) : Bool :=
  beginsWith suff.toList.reverse s.toList.reverse

/-- Python `str.isnumeric()`, restricted to ASCII: non-empty and all decimal
digits. -/
def pyIsNumeric (s : String) : Bool :=
  !s.toList.isEmpty && s.toList.all Char.isDigit

/-- Value of a list of decimal digit characters. -/
def digitsToNat (cs : List Char) : Nat :=
  cs.foldl (fun acc c => 10 * acc + (c.toNat - 48)) 0

/-- Parse a non-empty all-digit character list, else `none`. -/
def pyIntDigits? (cs : List Char) : Option Nat :=
  if cs.isEmpty then none
  else if cs.all Char.isDigit then some (digitsToNat cs) else none

/-- Python `int(s)` for decimal ASCII text: strip whitespace, optional sign,
then digits; `none` models a raised `ValueError`. -/
def pyInt? (s : String) : Option Int :=
  match (pyStrip s).toList with
  | '-' :: cs => (pyIntDigits? cs).map (fun n => -(n : Int))
  | '+' :: cs => (pyIntDigits? cs).map (fun n => (n : Int))
  | cs => (pyIntDigits? cs).map (fun n => (n : Int))

/-- Inner dictionary of a `defaultdict(lambda: defaultdict(int))`: variant
key to count, in insertion order. -/
abbrev Inner := List (String × Int)

/-- Outer dictionary: case key to inner dictionary, in insertion order. -/
abbrev Table := List (String × Inner)

/-- Assignment `d[k] = v` on an inner dictionary: overwrite in place, or
append a new key at the end. -/
def innerSet (d : Inner) (k : String) (v : Int) : Inner :=
  match d with
  | [] => [(k, v)]
  | (k0, v0) :: rest => if k0 = k then (k, v) :: rest else (k0, v0) :: innerSet rest k v

/-- Read `d[k]` on an inner `defaultdict(int)`: absent keys read as `0`. -/
def innerGet (d : Inner) (k : String) : Int :=
  match d with
  | [] => 0
  | (k0, v0) :: rest => if k0 = k then v0 else innerGet rest k

/-- Membership of a variant key in an inner dictionary. -/
def innerHas (d : Inner) (k : String) : Bool :=
  match d with
  | [] => false
  | (k0, _) :: rest => k0 = k || innerHas rest k

/-- Assignment `t[k][k2] = v` on the nested dictionary. -/
def tableSet (t : Table) (k k2 : String) (v : Int) : Table :=
  match t with
  | [] => [(k, [(k2, v)])]
  | (k0, d) :: rest =>
    if k0 = k then (k, innerSet d k2 v) :: rest else (k0, d) :: tableSet rest k k2 v

/-- Read `t[k][k2]` on the nested `defaultdict`: any absent key reads as `0`.
The Python read also inserts the default entry into the dictionary, but an
inserted default is indistinguishable from an absent key on every later
read, so reads are modelled as pure. -/
def tableGet (t : Table) (k k2 : String) : Int :=
  match t with
  | [] => 0
  | (k0, d) :: rest => if k0 = k then innerGet d k2 else tableGet rest k k2

/-- Membership of a (case key, variant key) pair in the nested dictionary. -/
def tableHas (t : Table) (k k2 : String) : Bool :=
  match t with
  | [] => false
  | (k0, d) :: rest => if k0 = k then innerHas d k2 else tableHas rest k k2

/-- Membership of a case key in the nested dictionary. -/
def tableHasKey (t : Table) (k : String) : Bool :=
  match t with
  | [] => false
  | (k0, _) :: rest => k0 = k || tableHasKey rest k

/-- The case keys of a table, in insertion order (Python `dict.keys()`). -/
def tableKeys (t : Table) : List String := t.map (fun e => e.1)

/-- The mutable state of `main`: the two nested dictionaries. -/
structure Agg where
  total_lemmas : Table
  verified : Table
deriving DecidableEq

/-- The empty initial state of `main`. -/
def initAgg : Agg := { total_lemmas := [], verified := [] }

/-- One iteration of the read loop of `main` (`result_to_table.py`, the body
of `for line in f.readlines()`): skip lines whose last field, stripped, ends
with `"error"`; skip lines without exactly 9 comma-separated fields; split
field 6 on `"/"` and skip unless that yields exactly 2 parts with a numeric
first part; otherwise run `int` on both parts (the second part first, as in
the source, where it is not guarded by `isnumeric`) and assign into both
dictionaries under the stripped field 0 and field 1.  `Except.error` models
an uncaught `ValueError` from `int`. -/
def processLine (st : Agg) (line : String) : Except String Agg :=
  let parts := pySplit ',' line
  if pyEndsWith (pyStrip (parts.getLastD "")) "error" then .ok st
  else if parts.length ≠ 9 then .ok st
  else
    let current_verified := pySplit '/' (parts.getD 6 "")
    if current_verified.length ≠ 2 ||
        !pyIsNumeric (pyStrip (current_verified.getD 0 "")) then .ok st
    else
      let caseKey := pyStrip (parts.getD 0 "")
      let variantKey := pyStrip (parts.getD 1 "")
      match pyInt? (pyStrip (current_verified.getD 1 "")) with
      | none => .error "ValueError"
      | some tot =>
        let st1 : Agg := { st with total_lemmas := tableSet st.total_lemmas caseKey variantKey tot }
        match pyInt? (pyStrip (current_verified.getD 0 "")) with
        | none => .error "ValueError"
        | some ver =>
          .ok { st1 with verified := tableSet st1.verified caseKey variantKey ver }

/-- The read loop of `main` run from an arbitrary starting state. -/
def parseFrom (st : Agg) (lines : List String) : Except String Agg :=
  lines.foldlM processLine st

/-- The full parsing pass of `main`: fold the read loop over the lines of
`result.csv`, starting from two empty dictionaries. -/
def parseLines (lines : List String) : Except String Agg :=
  parseFrom initAgg lines

/-- One alternating chunk of a natural-sort key: a run of non-digits, or the
value of a run of digits. -/
inductive NChunk where
  | str : String → NChunk
  | num : Nat → NChunk
deriving DecidableEq

/-- Close the current run while building a natural-sort key (`acc` holds the
run's characters in reverse). -/
def flushChunk (dig : Bool) (acc : List Char) : NChunk :=
  if dig then NChunk.num (digitsToNat acc.reverse) else NChunk.str (String.mk acc.reverse)

/-- Split the remaining characters into maximal runs of digits / non-digits,
with `acc` (reversed) the current run and `dig` its kind. -/
def chunkRuns (dig : Bool) (acc : List Char) : List Char → List NChunk
  | [] => [flushChunk dig acc]
  | c :: cs =>
    if c.isDigit = dig then chunkRuns dig (c :: acc) cs
    else flushChunk dig acc :: chunkRuns c.isDigit [c] cs

/-- The natural-sort key of a string, as computed by `natsort.natsorted`'s
default key: alternating string and number chunks, starting with a (possibly
empty) string chunk so that keys of distinct strings always compare
chunk-kind against like chunk-kind position by position. -/
def natKey (s : String) : List NChunk :=
  match s.toList with
  | [] => [NChunk.str ""]
  | c :: cs => (if c.isDigit then [NChunk.str ""] else []) ++ chunkRuns c.isDigit [c] cs

/-- Character comparison by code point. -/
def charCmp (a b : Char) : Ordering := compare a.toNat b.toNat

/-- Lexicographic comparison of character lists (Python string order). -/
def strCmpL : List Char → List Char → Ordering
  | [], [] => .eq
  | [], _ :: _ => .lt
  | _ :: _, [] => .gt
  | a :: as, b :: bs =>
    match charCmp a b with
    | .eq => strCmpL as bs
    | o => o

/-- Comparison of natural-sort chunks: strings lexicographically, numbers
numerically.  Chunks of different kinds never meet at the same position of
two `natKey`s; the cross cases are fixed arbitrarily for totality. -/
def chunkCmp : NChunk → NChunk → Ordering
  | .str a, .str b => strCmpL a.toList b.toList
  | .num a, .num b => compare a b
  | .num _, .str _ => .lt
  | .str _, .num _ => .gt

/-- Lexicographic comparison of natural-sort keys (Python tuple order: a
strict prefix compares less). -/
def keyCmp : List NChunk → List NChunk → Ordering
  | [], [] => .eq
  | [], _ :: _ => .lt
  | _ :: _, [] => .gt
  | a :: as, b :: bs =>
    match chunkCmp a b with
    | .eq => keyCmp as bs
    | o => o

/-- Non-strict natural order on strings. -/
def natLe (a b : String) : Bool :=
  match keyCmp (natKey a) (natKey b) with
  | Ordering.gt => false
  | _ => true

/-- Insert into a sorted list, after any equal elements (so the overall sort
is stable, as Python's `sorted` is). -/
def insertSorted (x : String) : List String → List String
  | [] => [x]
  | y :: ys => if natLe y x then y :: insertSorted x ys else x :: y :: ys

/-- `natsort.natsorted`: stable sort by natural-sort key. -/
def natsorted (l : List String) : List String :=
  l.foldl (fun acc x => insertSorted x acc) []

/-- The baseline variant literal used for the total column and the inclusion
test. -/
def baselineVariant : String := "-a 1 -p false -b true"

/-- The variant literal used for the third output column. -/
def verifiedVariant : String := "-p false -b true"

/-- The row printed for an included case key `i`: first 7 characters of `i`
and the four counts, ampersand-separated, ending in a double backslash. -/
def formatRow (total_lemmas verified : Table) (i : String) : String :=
  i.take 7 ++ " & " ++ toString (tableGet total_lemmas i baselineVariant) ++ " & " ++
    toString (tableGet total_lemmas i "") ++ " & " ++
    toString (tableGet verified i verifiedVariant) ++ " & " ++
    toString (tableGet verified i "") ++ " \\\\"

/-- The `continue` test of the output loop, with Python's short-circuit
evaluation: a key with non-zero baseline total is included; otherwise a key
without `"/"` is skipped; otherwise `int` runs on the part before the first
`"/"` (raising `ValueError`, modelled as `Except.error`, when it is not a
valid integer literal) and the key is included exactly when that value is
44 or 111. -/
def includeKey (total_lemmas : Table) (i : String) : Except String Bool :=
  if tableGet total_lemmas i baselineVariant = 0 then
    if !(i.toList.contains '/') then .ok false
    else
      match pyInt? ((pySplit '/' i).getD 0 "") with
      | none => .error "ValueError"
      | some n => .ok (n == 44 || n == 111)
  else .ok true

/-- The output loop of `main`: iterate the natural-sorted case keys of
`verified`, printing a row for each included key; an uncaught `ValueError`
aborts the loop. -/
def outputRows (st : Agg) : Except String (List String) :=
  (natsorted (tableKeys st.verified)).foldlM
    (fun acc i =>
      match includeKey st.total_lemmas i with
      | .error e => .error e
      | .ok true => .ok (acc ++ [formatRow st.total_lemmas st.verified i])
      | .ok false => .ok acc)
    []

/-- The whole of `main` as a function from the lines of `result.csv` to the
printed lines (or the uncaught error). -/
def run (lines : List String) : Except String (List String) :=
  match parseLines lines with
  | .error e => .error e
  | .ok st => outputRows st

/-! Dictionary lemmas. -/

theorem innerGet_innerSet_same (d : Inner) (k : String) (v : Int) :
    innerGet (innerSet d k v) k = v := by
  induction d with
  | nil => simp [innerSet, innerGet]
  | cons hd tl ih =>
    obtain ⟨k0, v0⟩ := hd
    by_cases hk : k0 = k
    · simp [innerSet, innerGet, hk]
    · simp [innerSet, innerGet, hk, ih]

theorem tableGet_tableSet_same (t : Table) (k k2 : String) (v : Int) :
    tableGet (tableSet t k k2 v) k k2 = v := by
  induction t with
  | nil => simp [tableSet, tableGet, innerGet]
  | cons hd tl ih =>
    obtain ⟨k0, d⟩ := hd
    by_cases hk : k0 = k
    · simp [tableSet, tableGet, hk, innerGet_innerSet_same]
    · simp [tableSet, tableGet, hk, ih]

theorem innerHas_innerSet (d : Inner) (k b : String) (v : Int) :
    innerHas (innerSet d k v) b = (decide (k = b) || innerHas d b) := by
  induction d with
  | nil => simp [innerSet, innerHas]
  | cons hd tl ih =>
    obtain ⟨k0, v0⟩ := hd
    by_cases hk : k0 = k
    · subst hk
      by_cases hb : k0 = b <;> simp [innerSet, innerHas, hb]
    · by_cases hb : k0 = b
      · subst hb
        simp [innerSet, innerHas, hk]
      · simp [innerSet, innerHas, hk, hb, ih]

theorem tableHas_tableSet (t : Table) (k k2 a b : String) (v : Int) :
    tableHas (tableSet t k k2 v) a b =
      ((decide (k = a) && decide (k2 = b)) || tableHas t a b) := by
  induction t with
  | nil => by_cases ha : k = a <;> simp [tableSet, tableHas, innerHas, ha]
  | cons hd tl ih =>
    obtain ⟨k0, d⟩ := hd
    by_cases hk : k0 = k
    · subst hk
      by_cases ha : k0 = a <;> simp [tableSet, tableHas, ha, innerHas_innerSet]
    · by_cases ha : k0 = a
      · subst ha
        have : ¬ k = k0 := fun he => hk he.symm
        simp [tableSet, tableHas, hk, this]
      · simp [tableSet, tableHas, hk, ha, ih]

theorem tableHasKey_tableSet (t : Table) (k k2 a : String) (v : Int) :
    tableHasKey (tableSet t k k2 v) a = (decide (k = a) || tableHasKey t a) := by
  induction t with
  | nil => simp [tableSet, tableHasKey]
  | cons hd tl ih =>
    obtain ⟨k0, d⟩ := hd
    by_cases hk : k0 = k
    · subst hk
      by_cases ha : k0 = a <;> simp [tableSet, tableHasKey, ha]
    · by_cases ha : k0 = a
      · subst ha
        simp [tableSet, tableHasKey, hk]
      · simp [tableSet, tableHasKey, hk, ha, ih]

/-! Lemmas about the read loop. -/

theorem parseFrom_nil (st : Agg) : parseFrom st [] = .ok st := rfl

theorem parseFrom_cons (st st1 : Agg) (l : String) (ls : List String)
    (h : processLine st l = .ok st1) :
    parseFrom st (l :: ls) = parseFrom st1 ls := by
  simp [parseFrom, List.foldlM_cons, h, Bind.bind, Except.bind]

theorem parseFrom_cons_error (st : Agg) (l : String) (ls : List String) (e : String)
    (h : processLine st l = .error e) :
    parseFrom st (l :: ls) = .error e := by
  simp [parseFrom, List.foldlM_cons, h, Bind.bind, Except.bind]

/-- An accepted line writes `tot` and `ver` into the two dictionaries under
its stripped (case key, variant key) pair, whatever the prior state. -/
theorem processLine_accepted (st : Agg) (line : String) (tot ver : Int)
    (h1 : pyEndsWith (pyStrip ((pySplit ',' line).getLastD "")) "error" = false)
    (h2 : (pySplit ',' line).length = 9)
    (h3 : (pySplit '/' ((pySplit ',' line).getD 6 "")).length = 2)
    (h4 : pyIsNumeric (pyStrip ((pySplit '/' ((pySplit ',' line).getD 6 "")).getD 0 "")) = true)
    (h5 : pyInt? (pyStrip ((pySplit '/' ((pySplit ',' line).getD 6 "")).getD 1 "")) = some tot)
    (h6 : pyInt? (pyStrip ((pySplit '/' ((pySplit ',' line).getD 6 "")).getD 0 "")) = some ver) :
    processLine st line = .ok
      { total_lemmas := tableSet st.total_lemmas (pyStrip ((pySplit ',' line).getD 0 ""))
          (pyStrip ((pySplit ',' line).getD 1 "")) tot,
        verified := tableSet st.verified (pyStrip ((pySplit ',' line).getD 0 ""))
          (pyStrip ((pySplit ',' line).getD 1 "")) ver } := by
  unfold processLine
  rw [if_neg (by rw [h1]; exact Bool.false_ne_true)]
  rw [if_neg (by rw [h2]; exact fun hc => hc rfl)]
  rw [if_neg (by rw [h3, h4]; exact (by simp))]
  rw [h5, h6]

theorem parseFrom_pair (st stA stB : Agg) (la lb : String)
    (ea : processLine st la = .ok stA) (eb : processLine stA lb = .ok stB) :
    parseFrom st [la, lb] = .ok stB := by
  rw [parseFrom_cons _ _ _ _ ea, parseFrom_cons _ _ _ _ eb, parseFrom_nil]

/-- A successful loop iteration writes either no (case key, variant key)
pair or the same pair into both dictionaries, so it preserves their
agreement on pairs and on case keys. -/
theorem processLine_preserves_pairs (st st1 : Agg) (line : String)
    (h : processLine st line = .ok st1)
    (hp : ∀ k v, tableHas st.total_lemmas k v = tableHas st.verified k v)
    (hk : ∀ k, tableHasKey st.total_lemmas k = tableHasKey st.verified k) :
    (∀ k v, tableHas st1.total_lemmas k v = tableHas st1.verified k v) ∧
    (∀ k, tableHasKey st1.total_lemmas k = tableHasKey st1.verified k) := by
  unfold processLine at h
  dsimp only at h
  split at h
  · rw [Except.ok.injEq] at h
    subst h
    exact ⟨hp, hk⟩
  · split at h
    · rw [Except.ok.injEq] at h
      subst h
      exact ⟨hp, hk⟩
    · split at h
      · rw [Except.ok.injEq] at h
        subst h
        exact ⟨hp, hk⟩
      · split at h
        · simp at h
        · split at h
          · simp at h
          · rw [Except.ok.injEq] at h
            subst h
            constructor
            · intro k v
              simp only [tableHas_tableSet]
              rw [hp k v]
            · intro k
              simp only [tableHasKey_tableSet]
              rw [hk k]

theorem parseFrom_preserves (lines : List String) :
    ∀ st st9, parseFrom st lines = .ok st9 →
      ((∀ k v, tableHas st.total_lemmas k v = tableHas st.verified k v) ∧
        (∀ k, tableHasKey st.total_lemmas k = tableHasKey st.verified k)) →
      ((∀ k v, tableHas st9.total_lemmas k v = tableHas st9.verified k v) ∧
        (∀ k, tableHasKey st9.total_lemmas k = tableHasKey st9.verified k)) := by
  induction lines with
  | nil =>
    intro st st9 h hi
    rw [parseFrom_nil, Except.ok.injEq] at h
    subst h
    exact hi
  | cons l ls ih =>
    intro st st9 h hi
    cases e : processLine st l with
    | error msg =>
      rw [parseFrom_cons_error st l ls msg e] at h
      simp at h
    | ok stm =>
      rw [parseFrom_cons st stm l ls e] at h
      exact ih stm st9 h (processLine_preserves_pairs st stm l e hi.1 hi.2)

/-! Claim theorems. -/

/-- C1 (counterexample): a 9-field line whose field 6 is `"3/abc"` (numeric
part before the `"/"`, non-numeric part after it) is not silently skipped:
the `int` call on the part after the `"/"` raises an uncaught `ValueError`
and the run aborts. -/
theorem nonnumeric_total_raises :
    run ["a,b,c,d,e,f,3/abc,h,ok"] = .error "ValueError" := rfl

/-- C1 (amended): a line whose field 6 does not split on `"/"` into exactly
2 parts, or whose part before the `"/"` is not numeric after stripping, is
silently discarded: it leaves the state unchanged and raises no error.
(A line passing those checks whose part after the `"/"` is not a valid
integer literal instead raises an uncaught `ValueError`.) -/
theorem ratio_shape_gate (st : Agg) (line : String)
    (h : (pySplit '/' ((pySplit ',' line).getD 6 "")).length ≠ 2 ∨
      pyIsNumeric (pyStrip ((pySplit '/' ((pySplit ',' line).getD 6 "")).getD 0 "")) = false) :
    processLine st line = .ok st := by
  unfold processLine
  by_cases h1 : pyEndsWith (pyStrip ((pySplit ',' line).getLastD "")) "error" = true
  · rw [if_pos h1]
  · rw [if_neg h1]
    by_cases h2 : (pySplit ',' line).length ≠ 9
    · rw [if_pos h2]
    · rw [if_neg h2]
      have hcond : ((pySplit '/' ((pySplit ',' line).getD 6 "")).length ≠ 2 ||
          !pyIsNumeric (pyStrip ((pySplit '/' ((pySplit ',' line).getD 6 "")).getD 0 ""))) = true := by
        rw [Bool.or_eq_true]
        rcases h with h | h
        · exact Or.inl (decide_eq_true h)
        · exact Or.inr (by rw [h]; rfl)
      rw [if_pos hcond]

/-- C1 (witness): the amended theorem applied to a line whose field 6 is
`"abc/5"`. -/
theorem ratio_shape_gate_witness :
    processLine initAgg "a,b,c,d,e,f,abc/5,h,ok" = .ok initAgg :=
  ratio_shape_gate initAgg "a,b,c,d,e,f,abc/5,h,ok" (Or.inr rfl)

/-- C2: the two example lines yield exactly one output row, with the total
count under the baseline variant and under the empty variant, and the
verified count under `"-p false -b true"` (absent, rendered 0) and under the
empty variant. -/
theorem end_to_end_example :
    run ["1/foo,,,,,,3/5,,ok", "1/foo,-a 1 -p false -b true,,,,,4/5,,ok"] =
      .ok ["1/foo & 5 & 5 & 0 & 3 \\\\"] := rfl

/-- C3: a line that does not split into exactly 9 comma-separated fields
leaves the aggregate state unchanged. -/
theorem field_count_gate (st : Agg) (line : String)
    (h : (pySplit ',' line).length ≠ 9) :
    processLine st line = .ok st := by
  unfold processLine
  by_cases h1 : pyEndsWith (pyStrip ((pySplit ',' line).getLastD "")) "error" = true
  · rw [if_pos h1]
  · rw [if_neg h1, if_pos h]

/-- C3 (witness): an 8-field line contributes nothing. -/
theorem field_count_gate_witness :
    processLine initAgg "a,b,c,d,e,f,1/2,h" = .ok initAgg :=
  field_count_gate initAgg "a,b,c,d,e,f,1/2,h" (by decide)

/-- C4: a candidate case key whose total count under the baseline variant is
zero is included by the output loop exactly when it contains a `"/"` and the
integer parsed from the part before the first `"/"` is 44 or 111. -/
theorem allowlist_inclusion (t : Table) (i : String)
    (h : tableGet t i baselineVariant = 0) :
    includeKey t i = .ok true ↔
      (i.toList.contains '/' = true ∧
        ∃ n : Int, pyInt? ((pySplit '/' i).getD 0 "") = some n ∧ (n = 44 ∨ n = 111)) := by
  unfold includeKey
  rw [if_pos h]
  by_cases hc : i.toList.contains '/' = true
  · have hmem : '/' ∈ i.data := by simpa using hc
    cases hn : pyInt? ((pySplit '/' i).getD 0 "") with
    | none => simp [hmem, hn]
    | some n => simp [hmem, hn]
  · simp at hc
    simp [hc]

/-- C4 (witness): with empty tables (so every baseline total is zero),
`"44/foo"` is included and `"45/foo"` and `"foo"` are not. -/
theorem allowlist_inclusion_witness :
    includeKey [] "44/foo" = .ok true ∧ includeKey [] "45/foo" ≠ .ok true ∧
      includeKey [] "foo" ≠ .ok true :=
  ⟨(allowlist_inclusion [] "44/foo" rfl).mpr ⟨rfl, 44, rfl, Or.inl rfl⟩,
    fun hc => by
      rcases (allowlist_inclusion [] "45/foo" rfl).mp hc with ⟨-, n, hn, hv⟩
      rw [show pyInt? ((pySplit '/' "45/foo").getD 0 "") = some 45 from rfl,
        Option.some.injEq] at hn
      subst hn
      exact absurd hv (by decide),
    fun hc => by
      rcases (allowlist_inclusion [] "foo" rfl).mp hc with ⟨hslash, -⟩
      simp at hslash⟩

/-- C5: the three case keys `"2/x"`, `"10/y"`, `"1/z"` are printed in
natural order `1/z, 2/x, 10/y`, not in lexicographic order. -/
theorem natural_order_example :
    run ["2/x,-a 1 -p false -b true,,,,,1/2,,ok",
        "10/y,-a 1 -p false -b true,,,,,1/2,,ok",
        "1/z,-a 1 -p false -b true,,,,,1/2,,ok"] =
      .ok ["1/z & 2 & 0 & 0 & 0 \\\\", "2/x & 2 & 0 & 0 & 0 \\\\",
        "10/y & 2 & 0 & 0 & 0 \\\\"] := rfl

/-- C6: when two accepted lines carry the same stripped case key and variant
key, the parsing pass leaves only the second line's verified and total
values in the dictionaries, whatever state it started from. -/
theorem last_write_wins (st : Agg) (la lb : String) (tota vera totb verb : Int)
    (ha1 : pyEndsWith (pyStrip ((pySplit ',' la).getLastD "")) "error" = false)
    (ha2 : (pySplit ',' la).length = 9)
    (ha3 : (pySplit '/' ((pySplit ',' la).getD 6 "")).length = 2)
    (ha4 : pyIsNumeric (pyStrip ((pySplit '/' ((pySplit ',' la).getD 6 "")).getD 0 "")) = true)
    (ha5 : pyInt? (pyStrip ((pySplit '/' ((pySplit ',' la).getD 6 "")).getD 1 "")) = some tota)
    (ha6 : pyInt? (pyStrip ((pySplit '/' ((pySplit ',' la).getD 6 "")).getD 0 "")) = some vera)
    (hb1 : pyEndsWith (pyStrip ((pySplit ',' lb).getLastD "")) "error" = false)
    (hb2 : (pySplit ',' lb).length = 9)
    (hb3 : (pySplit '/' ((pySplit ',' lb).getD 6 "")).length = 2)
    (hb4 : pyIsNumeric (pyStrip ((pySplit '/' ((pySplit ',' lb).getD 6 "")).getD 0 "")) = true)
    (hb5 : pyInt? (pyStrip ((pySplit '/' ((pySplit ',' lb).getD 6 "")).getD 1 "")) = some totb)
    (hb6 : pyInt? (pyStrip ((pySplit '/' ((pySplit ',' lb).getD 6 "")).getD 0 "")) = some verb)
    (hkey : pyStrip ((pySplit ',' lb).getD 0 "") = pyStrip ((pySplit ',' la).getD 0 ""))
    (hvar : pyStrip ((pySplit ',' lb).getD 1 "") = pyStrip ((pySplit ',' la).getD 1 "")) :
    ∃ st2, parseFrom st [la, lb] = .ok st2 ∧
      tableGet st2.verified (pyStrip ((pySplit ',' la).getD 0 ""))
        (pyStrip ((pySplit ',' la).getD 1 "")) = verb ∧
      tableGet st2.total_lemmas (pyStrip ((pySplit ',' la).getD 0 ""))
        (pyStrip ((pySplit ',' la).getD 1 "")) = totb := by
  obtain ⟨stA, ea⟩ : ∃ s, processLine st la = .ok s :=
    ⟨_, processLine_accepted st la tota vera ha1 ha2 ha3 ha4 ha5 ha6⟩
  have eb := processLine_accepted stA lb totb verb hb1 hb2 hb3 hb4 hb5 hb6
  rw [hkey, hvar] at eb
  refine ⟨_, parseFrom_pair st stA _ la lb ea eb, ?_, ?_⟩
  · exact tableGet_tableSet_same _ _ _ _
  · exact tableGet_tableSet_same _ _ _ _

/-- C6 (witness): two accepted lines with case key `"9/k"` and variant
`"cfg"` and ratios `1/2` then `3/4` leave verified 3 and total 4. -/
theorem last_write_wins_witness :
    ∃ st2, parseFrom initAgg ["9/k,cfg,,,,,1/2,,ok", "9/k,cfg,,,,,3/4,,ok"] = .ok st2 ∧
      tableGet st2.verified (pyStrip ((pySplit ',' "9/k,cfg,,,,,1/2,,ok").getD 0 ""))
        (pyStrip ((pySplit ',' "9/k,cfg,,,,,1/2,,ok").getD 1 "")) = 3 ∧
      tableGet st2.total_lemmas (pyStrip ((pySplit ',' "9/k,cfg,,,,,1/2,,ok").getD 0 ""))
        (pyStrip ((pySplit ',' "9/k,cfg,,,,,1/2,,ok").getD 1 "")) = 4 :=
  last_write_wins initAgg "9/k,cfg,,,,,1/2,,ok" "9/k,cfg,,,,,3/4,,ok" 2 1 4 3
    rfl rfl rfl rfl rfl rfl rfl rfl rfl rfl rfl rfl rfl rfl

/-- C7: a line whose last comma-separated field, stripped, ends with
`"error"` leaves the aggregate state unchanged and raises no error,
whatever its field count or ratio content. -/
theorem error_marker_gate (st : Agg) (line : String)
    (h : pyEndsWith (pyStrip ((pySplit ',' line).getLastD "")) "error" = true) :
    processLine st line = .ok st := by
  unfold processLine
  rw [if_pos h]

/-- C7 (witness): a line ending in `"someerror"` is skipped. -/
theorem error_marker_gate_witness :
    processLine initAgg "1,2,3/4,someerror" = .ok initAgg :=
  error_marker_gate initAgg "1,2,3/4,someerror" rfl

/-- C8: the output is a function of the input lines alone: equal inputs
give equal outputs (the model has no clock, randomness or hidden state). -/
theorem run_deterministic (l1 l2 : List String) (h : l1 = l2) : run l1 = run l2 :=
  congrArg run h

/-- C8 (witness): two runs on the example input agree. -/
theorem run_deterministic_witness :
    run ["1/foo,,,,,,3/5,,ok"] = run ["1/foo,,,,,,3/5,,ok"] :=
  run_deterministic ["1/foo,,,,,,3/5,,ok"] ["1/foo,,,,,,3/5,,ok"] rfl

/-- C9: an input producing candidate case key `"ab/c"` (contains `"/"`,
non-numeric part before it) with zero baseline total makes the output phase
raise an uncaught `ValueError` at the allow-list check. -/
theorem allowlist_nonnumeric_raises :
    run ["ab/c,,,,,,0/0,,ok"] = .error "ValueError" := rfl

/-- C10: after a completed parsing pass the two dictionaries hold exactly
the same (case key, variant key) pairs, and exactly the same case keys. -/
theorem tables_same_pairs (lines : List String) (st : Agg)
    (h : parseLines lines = .ok st) :
    (∀ k v, tableHas st.total_lemmas k v = tableHas st.verified k v) ∧
    (∀ k, tableHasKey st.total_lemmas k = tableHasKey st.verified k) :=
  parseFrom_preserves lines initAgg st h ⟨fun _ _ => rfl, fun _ => rfl⟩

/-- C10 (witness): the invariant applied to a one-line input. -/
theorem tables_same_pairs_witness :
    tableHas [("a", [("b", (2 : Int))])] "a" "b" =
      tableHas [("a", [("b", (1 : Int))])] "a" "b" :=
  (tables_same_pairs ["a,b,,,,,1/2,,ok"]
    { total_lemmas := [("a", [("b", 2)])], verified := [("a", [("b", 1)])] } rfl).1 "a" "b"

end ResultToTable
